import Mathlib

/-!
# Verification of the segmented fuzzy-search subsystem

This development embeds the client-side fuzzy-search subsystem of the
data-catalog static site:

* the metadata model (`src/lib/types.ts`),
* the index builder `buildIndexForCatalog` and the segmented searcher
  `searchSegmentedIndex` (`src/lib/fuzzy-search.ts`),
* the interactive search box state machine (`src/components/FuzzySearchBox.tsx`).

Modelling conventions:

* JavaScript numbers that hold relevance scores are embedded as rationals.
* The external fuzzy-match engine (fuse.js) is not part of this repository;
  following the design notes of the specification it is modelled as an
  arbitrary scoring function assigning each indexed item an optional
  distance-like score, with the documented engine behaviour (results sorted
  ascending by score, ties in original index order, bounded by the limit).
* The stable sort used by the merge step (JavaScript Array.sort, which is
  stable) is modelled with insertion sort, which is stable; a stable sort of
  a list under a total preorder is unique, so the choice is immaterial.
* Descriptive metadata fields that the search subsystem never reads
  (description, selected_columns, table_type, latency info, partition value
  and so on) are omitted from the embedded records.
-/

set_option allowUnsafeReducibility true

/- Rational arithmetic is used for relevance scores below. The Batteries
definitions of the operations are marked irreducible, which blocks plain
evaluation by the decide tactic on concrete score computations; they are
ordinary computable definitions, so restore the default reducibility. -/
attribute [local semireducible] Rat.add Rat.sub Rat.mul Rat.inv Rat.ofScientific

namespace DatarepoSearch

/-! ## Metadata model, from src/lib/types.ts -/

/-- ExportedTableColumn from types.ts: fields read by the search subsystem. -/
structure ExportedTableColumn where
  name : String
  type : String
deriving DecidableEq

/-- ExportedTablePartition from types.ts. The source field named
type-underscore-annotation is embedded as `typeAnn`; the partition value
field is never read by the search subsystem and is omitted. -/
structure ExportedTablePartition where
  column_name : String
  typeAnn : Option String
deriving DecidableEq

/-- ExportedTable from types.ts: name, optional column list (may be null in
the JSON export), partition list. -/
structure ExportedTable where
  name : String
  columns : Option (List ExportedTableColumn)
  partitions : List ExportedTablePartition
deriving DecidableEq

/-- ExportedDatabase from types.ts. -/
structure ExportedDatabase where
  name : String
  tables : List ExportedTable
deriving DecidableEq

/-- ExportedCatalog from types.ts. -/
structure ExportedCatalog where
  name : String
  databases : List ExportedDatabase
deriving DecidableEq

/-! ## Resource locators

The source builds resource URLs with generatePath from react-router, an
external library. Following the external-interface section of the
specification, the two patterns in use produce a path of the form
slash catalogKey slash databaseKey, respectively
slash catalogKey slash databaseKey slash tableKey with the table key
URL-escaped. -/

/-- Hexadecimal digit for a value below 16, uppercase. -/
def hexDigitChar (n : Nat) : Char :=
  if n < 10 then Char.ofNat (48 + n) else Char.ofNat (55 + n)

/-- Characters kept verbatim by encodeURIComponent-style escaping. -/
def isUnreservedChar (c : Char) : Bool :=
  c.isAlphanum || c = '-' || c = '_' || c = '.' || c = '!' || c = '~' ||
    c = '*' || c = Char.ofNat 39 || c = '(' || c = ')'

/-- UTF-8 bytes of a Unicode code point. -/
def utf8Bytes (n : Nat) : List Nat :=
  if n < 128 then [n]
  else if n < 2048 then [192 + n / 64, 128 + n % 64]
  else if n < 65536 then [224 + n / 4096, 128 + (n / 64) % 64, 128 + n % 64]
  else [240 + n / 262144, 128 + (n / 4096) % 64, 128 + (n / 64) % 64, 128 + n % 64]

/-- Percent-encoding of one byte. -/
def percentEncodeByte (b : Nat) : String :=
  String.mk ['%', hexDigitChar (b / 16), hexDigitChar (b % 16)]

/-- Modelled from the spec: URL escaping of a path parameter
(encodeURIComponent semantics), used for the table key in resource
locators; the escaping function itself lives in the external routing
library, not in this repository. -/
def urlEscape (s : String) : String :=
  String.join (s.toList.map (fun c =>
    if isUnreservedChar c then String.mk [c]
    else String.join ((utf8Bytes c.toNat).map percentEncodeByte)))

/-- Modelled from the spec: generatePath for the database pattern,
producing slash catalogKey slash databaseKey. -/
def generatePathDatabase (catalogKey databaseKey : String) : String :=
  "/" ++ catalogKey ++ "/" ++ databaseKey

/-- Modelled from the spec: generatePath for the table pattern, producing
slash catalogKey slash databaseKey slash tableKey with the table key
URL-escaped. -/
def generatePathTable (catalogKey databaseKey tableKey : String) : String :=
  "/" ++ catalogKey ++ "/" ++ databaseKey ++ "/" ++ urlEscape tableKey

/-! ## IndexItem and the segmented index, from src/lib/fuzzy-search.ts -/

/-- IndexItem from fuzzy-search.ts: a flattened search-oriented projection
of the metadata, tagged by kind. -/
inductive IndexItem where
  | database (resourceUrl databaseName : String)
  | table (resourceUrl databaseName tableName : String)
  | column (resourceUrl databaseName tableName columnOrPartitionName : String)
      (typeInfo : Option String)
  | partition (resourceUrl databaseName tableName columnOrPartitionName : String)
      (typeInfo : Option String)
deriving DecidableEq

/-- The resource locator carried by an index item. -/
def IndexItem.resourceUrl : IndexItem → String
  | .database u _ => u
  | .table u _ _ => u
  | .column u _ _ _ _ => u
  | .partition u _ _ _ _ => u

/-- The owning database name carried by an index item. -/
def IndexItem.databaseName : IndexItem → String
  | .database _ n => n
  | .table _ n _ => n
  | .column _ n _ _ _ => n
  | .partition _ n _ _ _ => n

/-- The owning table name carried by an index item, when the kind has one. -/
def IndexItem.tableName : IndexItem → Option String
  | .database _ _ => none
  | .table _ _ t => some t
  | .column _ _ t _ _ => some t
  | .partition _ _ t _ _ => some t

/-- One Fuse instance: the stored document list and the searchable keys it
was constructed with. -/
structure Fuse where
  docs : List IndexItem
  keys : List String
deriving DecidableEq

/-- SegmentedIndex from fuzzy-search.ts: the coarse databases-and-tables
index and the fine columns-and-partitions index. -/
structure SegmentedIndex where
  databasesAndTables : Fuse
  columnsAndPartitions : Fuse
deriving DecidableEq

/-- Coarse items contributed by one database: the database item followed by
one table item per table, in metadata order (fuzzy-search.ts lines 45-67). -/
def databaseCoarseItems (catalogName : String) (database : ExportedDatabase) :
    List IndexItem :=
  IndexItem.database (generatePathDatabase catalogName database.name) database.name ::
    database.tables.map (fun table =>
      IndexItem.table (generatePathTable catalogName database.name table.name)
        database.name table.name)

/-- Fine items contributed by one table: its column items (the columns list
may be null, defaulted to empty) followed by its partition items, in
metadata order (fuzzy-search.ts lines 69-89). -/
def tableFineItems (catalogName : String) (database : ExportedDatabase)
    (table : ExportedTable) : List IndexItem :=
  (table.columns.getD []).map (fun column =>
    IndexItem.column (generatePathTable catalogName database.name table.name)
      database.name table.name column.name (some column.type)) ++
  table.partitions.map (fun p =>
    IndexItem.partition (generatePathTable catalogName database.name table.name)
      database.name table.name p.column_name ( p.typeAnn))

/-- buildIndexForCatalog from fuzzy-search.ts lines 41-104: walk the
databases in order, pushing database and table items into the coarse index
and column and partition items into the fine index, then wrap each list in
a Fuse instance with the listed keys. -/
def buildIndexForCatalog (catalog : ExportedCatalog) : SegmentedIndex :=
  let databasesAndTablesIndex : List IndexItem :=
    catalog.databases.flatMap (databaseCoarseItems catalog.name)
  let columnsAndPartitionsIndex : List IndexItem :=
    catalog.databases.flatMap (fun database =>
      database.tables.flatMap (tableFineItems catalog.name database))
  { databasesAndTables :=
      { docs := databasesAndTablesIndex, keys := ["databaseName", "tableName"] }
    columnsAndPartitions :=
      { docs := columnsAndPartitionsIndex,
        keys := ["databaseName", "tableName", "columnOrPartitionName"] } }

/-! ## The segmented searcher, from src/lib/fuzzy-search.ts lines 106-118 -/

/-- FuseResult: one search hit, carrying the matched item, its index in
the stored document list, and a distance-like score (lower is better).
Scores are embedded as rationals; the searcher is constructed with
includeScore, so every result carries a score. -/
structure FuseResult where
  item : IndexItem
  refIndex : Nat
  score : ℚ
deriving DecidableEq

/-- Ascending-score comparison used by the merge step of the searcher
(the comparator at fuzzy-search.ts line 116). -/
def scoreLE (a b : FuseResult) : Prop := a.score ≤ b.score

instance : DecidableRel scoreLE := fun a b =>
  inferInstanceAs (Decidable (a.score ≤ b.score))

instance : IsTotal FuseResult scoreLE := ⟨fun a b => le_total a.score b.score⟩

instance : IsTrans FuseResult scoreLE := ⟨fun _ _ _ h h' => le_trans h h'⟩

/-- Modelled from the spec: the scoring side of the external fuzzy-match
engine (fuse.js, not part of this repository). Given the searchable keys of
an index and a query, an engine assigns an optional distance-like score to
each item; none means the item does not match. -/
abbrev Engine : Type := List String → String → IndexItem → Option ℚ

/-- Modelled from the spec: the bounded search of one Fuse instance. Every
matching item is paired with its score and original index; results are
returned sorted ascending by score, ties in original index order (the
documented engine sort), truncated to the limit. -/
def fuseSearch (engine : Engine) (f : Fuse) (query : String) (limit : Nat) :
    List FuseResult :=
  let scored := f.docs.enum.filterMap (fun p =>
    (engine f.keys query p.2).map
      (fun s => { item := p.2, refIndex := p.1, score := s }))
  (scored.insertionSort scoreLE).take limit

/-- The score bias applied to every coarse-index result (fuzzy-search.ts
lines 110-113): subtract 0.05 from the score. -/
def biasResult (r : FuseResult) : FuseResult :=
  { r with score := r.score - 0.05 }

/-- The combined list in discovery order: biased coarse-index results
followed by fine-index results (fuzzy-search.ts line 115). -/
def discoveryList (engine : Engine) (index : SegmentedIndex) (query : String)
    (limit : Nat) : List FuseResult :=
  (fuseSearch engine index.databasesAndTables query limit).map biasResult ++
    fuseSearch engine index.columnsAndPartitions query limit

/-- searchSegmentedIndex from fuzzy-search.ts lines 106-118: run both
bounded segment searches, subtract 0.05 from every coarse-index score,
concatenate, stable-sort ascending by score, truncate to the limit.
JavaScript Array.sort is stable; the stable sort is modelled with
insertion sort. -/
def searchSegmentedIndex (engine : Engine) (index : SegmentedIndex)
    (query : String) (limit : Nat) : List FuseResult :=
  let databasesAndTablesResults :=
    (fuseSearch engine index.databasesAndTables query limit).map biasResult
  let columnsAndPartitionsResults :=
    fuseSearch engine index.columnsAndPartitions query limit
  let combined := databasesAndTablesResults ++ columnsAndPartitionsResults
  (combined.insertionSort scoreLE).take limit

/-! ## The per-catalog index map, fuzzy-search.ts lines 120-124, and the
lookup performed by the search box (FuzzySearchBox.tsx lines 96 and 119) -/

/-- The association list backing the indexByCatalog map: one entry per
catalog, in catalog order, keyed by catalog name. -/
def indexByCatalog (catalogs : List ExportedCatalog) :
    List (String × SegmentedIndex) :=
  catalogs.map (fun c => (c.name, buildIndexForCatalog c))

/-- JavaScript Map.get over the association list: repeated set with the
same key overwrites, so lookup returns the value of the last entry with
the key. -/
def mapGet (m : List (String × SegmentedIndex)) (key : String) :
    Option SegmentedIndex :=
  (m.reverse.find? (fun p => p.1 == key)).map (fun p => p.2)

/-- The result list computed by the search effect (FuzzySearchBox.tsx line
119): when the catalog key has no built index the searcher is skipped and
the empty list is used; otherwise the segmented search runs with limit 10. -/
def effectSearchResults (engine : Engine) (catalogs : List ExportedCatalog)
    (catalogKey query : String) : List FuseResult :=
  match mapGet (indexByCatalog catalogs) catalogKey with
  | some index => searchSegmentedIndex engine index query 10
  | none => []

/-! ## The debounced query, FuzzySearchBox.tsx line 117

The useThrottle hook is imported by the component but its source is not in
this repository slice. -/

/-- Modelled from the spec: the debounced query stream. Input is the list
of text-change events as pairs of a millisecond timestamp and the query
text, in strictly increasing time order. Each event restarts a cancellable
100 millisecond timer; an event propagates to the searcher only if no
further event arrives within its window, so the emitted list holds one
query per quiet period. -/
def debounceEmits : List (Nat × String) → List String
  | [] => []
  | (t, q) :: rest =>
    match rest with
    | [] => [q]
    | (t2, _) :: _ =>
      if t2 < t + 100 then debounceEmits rest else q :: debounceEmits rest

/-! ## The search box state machine, from src/components/FuzzySearchBox.tsx -/

/-- The component state: the query text, the current result list and the
highlighted result index. -/
structure BoxState where
  query : String
  results : List FuseResult
  activeIndex : Nat
deriving DecidableEq

/-- The initial state: empty query, no results, highlight at 0
(FuzzySearchBox.tsx lines 94-98). -/
def initBox : BoxState := { query := "", results := [], activeIndex := 0 }

/-- The discrete events handled by the component. -/
inductive BoxEvent where
  | inputChange (s : String)
  | debouncedResults (rs : List FuseResult)
  | keyEscape
  | keyEnter
  | keyArrowUp
  | keyArrowDown
  | pointerDownResult (i : Nat)
  | clickResult (i : Nat)
  | pointerDownOutside
deriving DecidableEq

/-- Whether an event is the debounced search effect. -/
def BoxEvent.isDebounced : BoxEvent → Bool
  | .debouncedResults _ => true
  | _ => false

/-- One step of the component: the next state and the navigation target, if
the event activates a result. Each branch mirrors the handler in
FuzzySearchBox.tsx:

* inputChange: line 153, the query state updates immediately;
* debouncedResults: lines 118-130, the search effect replaces the results
  and resets the highlight to 0;
* keyEscape: lines 159-162, clear query and results;
* keyEnter: lines 163-166 with onActivate at lines 140-145: when the
  highlighted result exists, clear query and results and navigate to its
  resource locator;
* keyArrowUp: lines 167-176, wraparound decrement, no-op on an empty list;
* keyArrowDown: lines 177-180, the JavaScript expression
  ((activeIndex + 1) modulo results.length) or-else 0, which is 0 on an
  empty list because the modulus is NaN;
* pointerDownResult: lines 198-201, highlight the pressed result;
* clickResult: line 202 with onActivate;
* pointerDownOutside: lines 103-115, clear query and results. -/
def stepBox (s : BoxState) : BoxEvent → BoxState × Option String
  | .inputChange q => ({ s with query := q }, none)
  | .debouncedResults rs => ({ s with results := rs, activeIndex := 0 }, none)
  | .keyEscape => ({ s with query := "", results := [] }, none)
  | .keyEnter =>
    match s.results[s.activeIndex]? with
    | some r => ({ s with query := "", results := [] }, some r.item.resourceUrl)
    | none => (s, none)
  | .keyArrowUp =>
    if 0 < s.results.length then
      if s.activeIndex = 0 then
        ({ s with activeIndex := s.results.length - 1 }, none)
      else
        ({ s with activeIndex := s.activeIndex - 1 }, none)
    else (s, none)
  | .keyArrowDown =>
    ({ s with activeIndex :=
        if s.results.length = 0 then 0
        else (s.activeIndex + 1) % s.results.length }, none)
  | .pointerDownResult i =>
    if i < s.results.length then ({ s with activeIndex := i }, none)
    else (s, none)
  | .clickResult i =>
    match s.results[i]? with
    | some r => ({ s with query := "", results := [] }, some r.item.resourceUrl)
    | none => (s, none)
  | .pointerDownOutside => ({ s with query := "", results := [] }, none)

/-- Reachable component states, for a fixed engine, catalog list and
catalog key: the initial state, closed under the debounced search effect
(whose result list is the one the effect computes for some debounced
query) and under every other event. -/
inductive ReachableBox (engine : Engine) (catalogs : List ExportedCatalog)
    (catalogKey : String) : BoxState → Prop where
  | init : ReachableBox engine catalogs catalogKey initBox
  | stepSearch (s : BoxState) (q : String)
      (h : ReachableBox engine catalogs catalogKey s) :
      ReachableBox engine catalogs catalogKey
        (stepBox s (BoxEvent.debouncedResults
          (effectSearchResults engine catalogs catalogKey q))).1
  | stepUi (s : BoxState) (e : BoxEvent) (he : e.isDebounced = false)
      (h : ReachableBox engine catalogs catalogKey s) :
      ReachableBox engine catalogs catalogKey (stepBox s e).1

/-! ## Concrete sample data

A small catalog in the shape of the scenario of the specification, together
with a trivially matching engine; used to instantiate the theorems below at
concrete inputs. -/

/-- A sample catalog: one database holding one table with one column and
one partition. -/
def demoCatalog : ExportedCatalog :=
  { name := "tpc-h"
    databases := [
      { name := "analytics"
        tables := [
          { name := "customer"
            columns := some [{ name := "c_custkey", type := "Int64" }]
            partitions := [{ column_name := "date", typeAnn := some "str" }] }] }] }

/-- A sample engine that scores every item 0 for every query. -/
def constEngine : Engine := fun _ _ _ => some 0

/-- The segmented index built for the sample catalog. -/
def demoIndex : SegmentedIndex := buildIndexForCatalog demoCatalog

/-- The result list the search effect computes for the sample data: four
results (one database, one table, one column, one partition item). -/
def demoResults : List FuseResult :=
  effectSearchResults constEngine [demoCatalog] "tpc-h" "cust"

/-- State after the search effect installs the sample results. -/
def ceStateA : BoxState :=
  (stepBox initBox (BoxEvent.debouncedResults demoResults)).1

/-- State after one ArrowDown: highlight at index 1. -/
def ceStateB : BoxState := (stepBox ceStateA BoxEvent.keyArrowDown).1

/-- State after Escape from ceStateB: results cleared, highlight still 1. -/
def ceStateC : BoxState := (stepBox ceStateB BoxEvent.keyEscape).1

/-- The sample result at index 1 of the installed result list. -/
def demoResultAt1 : FuseResult :=
  demoResults.getD 1 { item := IndexItem.database "" "", refIndex := 0, score := 0 }

/-- The first raw coarse-index match on the sample data. -/
def demoCoarseFirst : FuseResult :=
  (fuseSearch constEngine demoIndex.databasesAndTables "cust" 10).getD 0
    { item := IndexItem.database "" "", refIndex := 0, score := 0 }

/-- The first raw fine-index match on the sample data. -/
def demoFineFirst : FuseResult :=
  (fuseSearch constEngine demoIndex.columnsAndPartitions "cust" 10).getD 0
    { item := IndexItem.database "" "", refIndex := 0, score := 0 }

/-! ## Theorems -/

theorem searchSegmentedIndex_def (engine : Engine) (index : SegmentedIndex)
    (query : String) (limit : Nat) :
    searchSegmentedIndex engine index query limit =
      ((discoveryList engine index query limit).insertionSort scoreLE).take limit :=
  rfl

theorem coarse_flatMap_length (catalogName : String) :
    ∀ dbs : List ExportedDatabase,
      (dbs.flatMap (databaseCoarseItems catalogName)).length
        = dbs.length + (dbs.map (fun d => d.tables.length)).sum
  | [] => rfl
  | d :: rest => by
    have ih := coarse_flatMap_length catalogName rest
    simp only [List.flatMap_cons, List.length_append, ih, databaseCoarseItems,
      List.length_cons, List.length_map, List.map_cons, List.sum_cons]
    omega

/-- C1: buildIndexForCatalog puts one database item plus one table item per
table into the coarse index, N plus M items in total for N databases and M
tables, and, for every table, exactly its columns-plus-partitions block
into the fine index, each block of length C plus P with every item carrying
the database name and table name of that table; a catalog with no databases
yields no items in either index. -/
theorem claim1_index_shape (catalog : ExportedCatalog) :
    ((buildIndexForCatalog catalog).databasesAndTables.docs.length
        = catalog.databases.length
          + (catalog.databases.map (fun d => d.tables.length)).sum)
  ∧ ((buildIndexForCatalog catalog).columnsAndPartitions.docs
        = catalog.databases.flatMap (fun d =>
            d.tables.flatMap (tableFineItems catalog.name d)))
  ∧ (∀ d : ExportedDatabase, ∀ t : ExportedTable,
        (tableFineItems catalog.name d t).length
          = (t.columns.getD []).length + t.partitions.length)
  ∧ (∀ d : ExportedDatabase, ∀ t : ExportedTable,
        ∀ item ∈ tableFineItems catalog.name d t,
          item.databaseName = d.name ∧ item.tableName = some t.name)
  ∧ (catalog.databases = [] →
        (buildIndexForCatalog catalog).databasesAndTables.docs = []
        ∧ (buildIndexForCatalog catalog).columnsAndPartitions.docs = []) := by
  refine ⟨coarse_flatMap_length catalog.name catalog.databases, rfl, ?_, ?_, ?_⟩
  · intro d t
    simp [tableFineItems]
  · intro d t item hmem
    rcases List.mem_append.mp hmem with h | h
    · rcases List.mem_map.mp h with ⟨c, _, rfl⟩
      exact ⟨rfl, rfl⟩
    · rcases List.mem_map.mp h with ⟨p, _, rfl⟩
      exact ⟨rfl, rfl⟩
  · intro h
    simp [buildIndexForCatalog, h]

/-- C2: the searcher returns at most limit items, sorted ascending by
score; the returned list is the limit-truncation of a stable sort of the
discovery-order list (biased coarse results first, then fine results, each
segment in its own result order), so ties between equal scores keep
discovery order. -/
theorem claim2_search_sorted_bounded (engine : Engine) (index : SegmentedIndex)
    (query : String) (limit : Nat) :
    (searchSegmentedIndex engine index query limit).length ≤ limit
  ∧ (searchSegmentedIndex engine index query limit).Pairwise scoreLE
  ∧ discoveryList engine index query limit
      = (fuseSearch engine index.databasesAndTables query limit).map biasResult
        ++ fuseSearch engine index.columnsAndPartitions query limit
  ∧ ∃ sorted : List FuseResult,
      sorted.Perm (discoveryList engine index query limit)
      ∧ sorted.Pairwise scoreLE
      ∧ (∀ a b : FuseResult,
            List.Sublist [a, b] (discoveryList engine index query limit) →
            scoreLE a b → List.Sublist [a, b] sorted)
      ∧ searchSegmentedIndex engine index query limit = sorted.take limit := by
  refine ⟨?_, ?_, rfl,
    List.insertionSort scoreLE (discoveryList engine index query limit),
    List.perm_insertionSort scoreLE _, List.sorted_insertionSort scoreLE _,
    ?_, rfl⟩
  · rw [searchSegmentedIndex_def]
    exact List.length_take_le _ _
  · rw [searchSegmentedIndex_def]
    exact List.Pairwise.sublist (List.take_sublist _ _)
      (List.sorted_insertionSort scoreLE _)
  · intro a b hsub hab
    exact List.pair_sublist_insertionSort hab hsub

/-- C3: the bias subtracts exactly 0.05 from a coarse-index score; every
returned result is either a biased coarse-index result or an unchanged
fine-index result; and a coarse-index match whose underlying score equals
that of a fine-index match ends up at least 0.05 lower. -/
theorem claim3_score_bias (engine : Engine) (index : SegmentedIndex)
    (query : String) (limit : Nat) :
    (∀ r0 : FuseResult, (biasResult r0).score = r0.score - 0.05)
  ∧ (∀ r ∈ searchSegmentedIndex engine index query limit,
        (∃ r0 ∈ fuseSearch engine index.databasesAndTables query limit,
            r = biasResult r0)
        ∨ r ∈ fuseSearch engine index.columnsAndPartitions query limit)
  ∧ (∀ rc ∈ fuseSearch engine index.databasesAndTables query limit,
     ∀ rf ∈ fuseSearch engine index.columnsAndPartitions query limit,
        rc.score = rf.score → (biasResult rc).score ≤ rf.score - 0.05) := by
  refine ⟨fun r0 => rfl, ?_, ?_⟩
  · intro r hr
    rw [searchSegmentedIndex_def] at hr
    have hr1 := (List.take_sublist _ _).subset hr
    have hr2 : r ∈ discoveryList engine index query limit :=
      (List.mem_insertionSort scoreLE).mp hr1
    rcases List.mem_append.mp hr2 with h | h
    · rcases List.mem_map.mp h with ⟨r0, hr0, rfl⟩
      exact Or.inl ⟨r0, hr0, rfl⟩
    · exact Or.inr h
  · intro rc _ rf _ heq
    show rc.score - 0.05 ≤ rf.score - 0.05
    rw [heq]

/-- C5: the searcher is deterministic and idempotent: identical arguments
give identical output, item for item and position for position. In this
embedding the searcher is a pure function of the immutable index; the
source mutates only the per-call result records when applying the bias,
never the stored index. -/
theorem claim5_search_deterministic (engine : Engine) (index : SegmentedIndex)
    (query : String) (limit : Nat) :
    searchSegmentedIndex engine index query limit
      = searchSegmentedIndex engine index query limit
  ∧ ∀ i : Nat,
      (searchSegmentedIndex engine index query limit)[i]?
        = (searchSegmentedIndex engine index query limit)[i]? :=
  ⟨rfl, fun _ => rfl⟩

/-- C8: every index item carries a resource locator of the form
slash catalogKey slash databaseKey for database items, and
slash catalogKey slash databaseKey slash tableKey with the table key
URL-escaped for table, column and partition items. -/
theorem claim8_resource_locators (catalog : ExportedCatalog) :
    ∀ item ∈ (buildIndexForCatalog catalog).databasesAndTables.docs
        ++ (buildIndexForCatalog catalog).columnsAndPartitions.docs,
      (match item with
       | .database url dbName => url = "/" ++ catalog.name ++ "/" ++ dbName
       | .table url dbName tblName =>
           url = "/" ++ catalog.name ++ "/" ++ dbName ++ "/" ++ urlEscape tblName
       | .column url dbName tblName _ _ =>
           url = "/" ++ catalog.name ++ "/" ++ dbName ++ "/" ++ urlEscape tblName
       | .partition url dbName tblName _ _ =>
           url = "/" ++ catalog.name ++ "/" ++ dbName ++ "/" ++ urlEscape tblName) := by
  intro item hmem
  rcases List.mem_append.mp hmem with h | h
  · rcases List.mem_flatMap.mp h with ⟨d, _, hitem⟩
    rcases List.mem_cons.mp hitem with rfl | hitem2
    · rfl
    · rcases List.mem_map.mp hitem2 with ⟨t, _, rfl⟩
      rfl
  · rcases List.mem_flatMap.mp h with ⟨d, _, hitem⟩
    rcases List.mem_flatMap.mp hitem with ⟨t, _, hitem2⟩
    rcases List.mem_append.mp hitem2 with h3 | h3
    · rcases List.mem_map.mp h3 with ⟨c, _, rfl⟩
      rfl
    · rcases List.mem_map.mp h3 with ⟨p, _, rfl⟩
      rfl

/-- C9: when no segmented index was built for the catalog key, the lookup
is empty and the search effect produces the empty result list without
invoking the searcher. -/
theorem claim9_missing_catalog_empty (engine : Engine)
    (catalogs : List ExportedCatalog) (catalogKey query : String)
    (h : ∀ c ∈ catalogs, c.name ≠ catalogKey) :
    mapGet (indexByCatalog catalogs) catalogKey = none
    ∧ effectSearchResults engine catalogs catalogKey query = [] := by
  have hfind : (indexByCatalog catalogs).reverse.find?
      (fun p => p.1 == catalogKey) = none := by
    apply List.find?_eq_none.mpr
    intro p hp
    rcases List.mem_map.mp (List.mem_reverse.mp hp) with ⟨c, hc, rfl⟩
    simpa using h c hc
  have hnone : mapGet (indexByCatalog catalogs) catalogKey = none := by
    unfold mapGet
    rw [hfind]
    rfl
  refine ⟨hnone, ?_⟩
  unfold effectSearchResults
  rw [hnone]

/-- C4: within a burst of text changes where every successive change
arrives strictly within 100 milliseconds of the previous one, the debounced
query stream emits exactly one query, the final query of the burst, so
exactly one search is issued and it is for the final text. -/
theorem claim4_debounce_single_search :
    ∀ (events : List (Nat × String)) (hne : events ≠ []),
      events.Chain' (fun a b => b.1 < a.1 + 100) →
      debounceEmits events = [(events.getLast hne).2]
  | [], hne, _ => absurd rfl hne
  | [(_, _)], _, _ => rfl
  | (t, q) :: (t2, q2) :: rest, _, hburst => by
    rcases List.chain'_cons.mp hburst with ⟨hlt, hrest⟩
    have hne2 : (t2, q2) :: rest ≠ [] := by simp
    have ih := claim4_debounce_single_search ((t2, q2) :: rest) hne2 hrest
    show (if t2 < t + 100 then debounceEmits ((t2, q2) :: rest)
          else q :: debounceEmits ((t2, q2) :: rest)) = _
    rw [if_pos hlt, ih, List.getLast_cons hne2]

theorem stepBox_inputChange (s : BoxState) (q : String) :
    stepBox s (BoxEvent.inputChange q) = ({ s with query := q }, none) := rfl

theorem stepBox_debouncedResults (s : BoxState) (rs : List FuseResult) :
    stepBox s (BoxEvent.debouncedResults rs)
      = ({ s with results := rs, activeIndex := 0 }, none) := rfl

theorem stepBox_keyEscape (s : BoxState) :
    stepBox s BoxEvent.keyEscape
      = ({ s with query := "", results := [] }, none) := rfl

theorem stepBox_keyEnter (s : BoxState) :
    stepBox s BoxEvent.keyEnter
      = match s.results[s.activeIndex]? with
        | some r => ({ s with query := "", results := [] },
            some r.item.resourceUrl)
        | none => (s, none) := rfl

theorem stepBox_keyArrowUp (s : BoxState) :
    stepBox s BoxEvent.keyArrowUp
      = if 0 < s.results.length then
          if s.activeIndex = 0 then
            ({ s with activeIndex := s.results.length - 1 }, none)
          else
            ({ s with activeIndex := s.activeIndex - 1 }, none)
        else (s, none) := rfl

theorem stepBox_keyArrowDown (s : BoxState) :
    stepBox s BoxEvent.keyArrowDown
      = ({ s with activeIndex :=
            if s.results.length = 0 then 0
            else (s.activeIndex + 1) % s.results.length }, none) := rfl

theorem stepBox_pointerDownResult (s : BoxState) (i : Nat) :
    stepBox s (BoxEvent.pointerDownResult i)
      = if i < s.results.length then ({ s with activeIndex := i }, none)
        else (s, none) := rfl

theorem stepBox_clickResult (s : BoxState) (i : Nat) :
    stepBox s (BoxEvent.clickResult i)
      = match s.results[i]? with
        | some r => ({ s with query := "", results := [] },
            some r.item.resourceUrl)
        | none => (s, none) := rfl

theorem stepBox_pointerDownOutside (s : BoxState) :
    stepBox s BoxEvent.pointerDownOutside
      = ({ s with query := "", results := [] }, none) := rfl

theorem reachable_activeIndex_lt (engine : Engine)
    (catalogs : List ExportedCatalog) (catalogKey : String) (s : BoxState)
    (h : ReachableBox engine catalogs catalogKey s) :
    0 < s.results.length → s.activeIndex < s.results.length := by
  induction h with
  | init => intro h0; simpa using h0
  | stepSearch s q hs ih => intro h0; exact h0
  | stepUi s e he hs ih =>
    cases e with
    | inputChange q => rw [stepBox_inputChange]; exact ih
    | debouncedResults rs => simp [BoxEvent.isDebounced] at he
    | keyEscape => rw [stepBox_keyEscape]; intro h0; simp at h0
    | keyEnter =>
      rw [stepBox_keyEnter]
      rcases hi : s.results[s.activeIndex]? with _ | r
      · exact ih
      · intro h0; simp at h0
    | keyArrowUp =>
      rw [stepBox_keyArrowUp]
      rcases Nat.eq_zero_or_pos s.results.length with hz | hp
      · rw [if_neg (by omega)]
        exact ih
      · rw [if_pos hp]
        rcases Nat.eq_zero_or_pos s.activeIndex with ha | ha
        · rw [if_pos ha]
          intro _
          show s.results.length - 1 < s.results.length
          omega
        · rw [if_neg (by omega)]
          intro _
          show s.activeIndex - 1 < s.results.length
          have := ih hp
          omega
    | keyArrowDown =>
      rw [stepBox_keyArrowDown]
      intro h0
      show (if s.results.length = 0 then 0
            else (s.activeIndex + 1) % s.results.length) < s.results.length
      replace h0 : 0 < s.results.length := h0
      rw [if_neg (by omega)]
      exact Nat.mod_lt _ h0
    | pointerDownResult i =>
      rw [stepBox_pointerDownResult]
      rcases Nat.lt_or_ge i s.results.length with hi | hi
      · rw [if_pos hi]
        intro _
        exact hi
      · rw [if_neg (by omega)]
        exact ih
    | clickResult i =>
      rw [stepBox_clickResult]
      rcases hi : s.results[i]? with _ | r
      · exact ih
      · intro h0; simp at h0
    | pointerDownOutside =>
      rw [stepBox_pointerDownOutside]; intro h0; simp at h0

/-- C6 amended: with a non-empty result list, ArrowDown at the last result
wraps the highlight to 0, ArrowUp at 0 wraps to the last result, and
otherwise the keys move the highlight by one; with an empty result list,
ArrowUp leaves the state unchanged, while ArrowDown sets the highlight to 0
(a no-op only when it already is 0). -/
theorem claim6_arrow_navigation (s : BoxState) :
    (0 < s.results.length → s.activeIndex = s.results.length - 1 →
        (stepBox s BoxEvent.keyArrowDown).1 = { s with activeIndex := 0 })
  ∧ (0 < s.results.length → s.activeIndex = 0 →
        (stepBox s BoxEvent.keyArrowUp).1
          = { s with activeIndex := s.results.length - 1 })
  ∧ (s.activeIndex + 1 < s.results.length →
        (stepBox s BoxEvent.keyArrowDown).1
          = { s with activeIndex := s.activeIndex + 1 })
  ∧ (0 < s.activeIndex → s.activeIndex < s.results.length →
        (stepBox s BoxEvent.keyArrowUp).1
          = { s with activeIndex := s.activeIndex - 1 })
  ∧ (s.results = [] →
        (stepBox s BoxEvent.keyArrowUp).1 = s
        ∧ (stepBox s BoxEvent.keyArrowDown).1 = { s with activeIndex := 0 }) := by
  refine ⟨?_, ?_, ?_, ?_, ?_⟩
  · intro hlen hai
    rw [stepBox_keyArrowDown]
    show ({ s with activeIndex := if s.results.length = 0 then 0
              else (s.activeIndex + 1) % s.results.length } : BoxState) = _
    rw [if_neg (by omega), hai, Nat.sub_add_cancel hlen, Nat.mod_self]
  · intro hlen hai
    rw [stepBox_keyArrowUp, if_pos hlen, if_pos hai]
  · intro hlt
    rw [stepBox_keyArrowDown]
    show ({ s with activeIndex := if s.results.length = 0 then 0
              else (s.activeIndex + 1) % s.results.length } : BoxState) = _
    rw [if_neg (by omega), Nat.mod_eq_of_lt hlt]
  · intro hpos hlt
    rw [stepBox_keyArrowUp, if_pos (by omega), if_neg (by omega)]
  · intro hempty
    constructor
    · rw [stepBox_keyArrowUp, if_neg (by simp [hempty])]
    · rw [stepBox_keyArrowDown]
      show ({ s with activeIndex := if s.results.length = 0 then 0
                else (s.activeIndex + 1) % s.results.length } : BoxState) = _
      rw [if_pos (by simp [hempty])]

/-- C7 amended: activating a result, by Enter on the highlighted result or
by click, clears the query and the result list and navigates to the
activated resource locator, but leaves the highlighted-selection index
unchanged rather than resetting it; the highlight returns to 0 only when a
later search installs a new result list. -/
theorem claim7_activation_resets (s : BoxState) (r : FuseResult) :
    (s.results[s.activeIndex]? = some r →
        stepBox s BoxEvent.keyEnter
          = ({ query := "", results := [], activeIndex := s.activeIndex },
             some r.item.resourceUrl))
  ∧ (∀ i : Nat, s.results[i]? = some r →
        stepBox s (BoxEvent.clickResult i)
          = ({ query := "", results := [], activeIndex := s.activeIndex },
             some r.item.resourceUrl)) := by
  constructor
  · intro h
    rw [stepBox_keyEnter, h]
  · intro i h
    rw [stepBox_clickResult, h]

/-- C10 amended: in every reachable state the highlighted index is a
natural number and is a valid index into the result list whenever that
list is non-empty; the debounced search effect resets the highlight to 0
in the same update that installs a result list, and ArrowDown on an empty
result list sets the highlight to 0 rather than out of range; however the
events that merely clear the result list (Escape, outside pointer-down,
activation) leave the highlight unchanged instead of resetting it. -/
theorem claim10_active_index_invariant :
    (∀ (engine : Engine) (catalogs : List ExportedCatalog)
        (catalogKey : String) (s : BoxState),
        ReachableBox engine catalogs catalogKey s →
        0 < s.results.length → s.activeIndex < s.results.length)
  ∧ (∀ (s : BoxState) (rs : List FuseResult),
        (stepBox s (BoxEvent.debouncedResults rs)).1
          = { s with results := rs, activeIndex := 0 })
  ∧ (∀ s : BoxState, s.results = [] →
        (stepBox s BoxEvent.keyArrowDown).1 = { s with activeIndex := 0 })
  ∧ (∀ s : BoxState,
        (stepBox s BoxEvent.keyEscape).1.activeIndex = s.activeIndex
        ∧ (stepBox s BoxEvent.pointerDownOutside).1.activeIndex = s.activeIndex
        ∧ (stepBox s BoxEvent.keyEnter).1.activeIndex = s.activeIndex) := by
  refine ⟨reachable_activeIndex_lt, fun s rs => rfl, ?_, ?_⟩
  · intro s hempty
    rw [stepBox_keyArrowDown]
    show ({ s with activeIndex := if s.results.length = 0 then 0
              else (s.activeIndex + 1) % s.results.length } : BoxState) = _
    rw [if_pos (by simp [hempty])]
  · intro s
    refine ⟨rfl, rfl, ?_⟩
    rw [stepBox_keyEnter]
    rcases hi : s.results[s.activeIndex]? with _ | r <;> rfl

theorem reachable_ceStateA :
    ReachableBox constEngine [demoCatalog] "tpc-h" ceStateA :=
  ReachableBox.stepSearch initBox "cust" ReachableBox.init

theorem reachable_ceStateB :
    ReachableBox constEngine [demoCatalog] "tpc-h" ceStateB :=
  ReachableBox.stepUi ceStateA BoxEvent.keyArrowDown rfl reachable_ceStateA

theorem reachable_ceStateC :
    ReachableBox constEngine [demoCatalog] "tpc-h" ceStateC :=
  ReachableBox.stepUi ceStateB BoxEvent.keyEscape rfl reachable_ceStateB

/-- C6 counterexample: ceStateC is a reachable state with an empty result
list, reached by Escape while the highlight was at 1, and pressing
ArrowDown there changes the state, resetting the highlight to 0; so with
an empty result list ArrowDown is not a no-op. -/
theorem claim6_counterexample :
    ReachableBox constEngine [demoCatalog] "tpc-h" ceStateC
    ∧ ceStateC.results = []
    ∧ (stepBox ceStateC BoxEvent.keyArrowDown).1 ≠ ceStateC :=
  ⟨reachable_ceStateC, by decide, by decide⟩

/-- C7 counterexample: in the reachable state ceStateB the highlight is at
1; pressing Enter navigates to the activated resource locator, yet the
post-activation state keeps the highlight at 1 instead of returning it to
its initial value 0, so activation does not fully reset the search state
before navigating. -/
theorem claim7_counterexample :
    ReachableBox constEngine [demoCatalog] "tpc-h" ceStateB
    ∧ (stepBox ceStateB BoxEvent.keyEnter).2.isSome = true
    ∧ (stepBox ceStateB BoxEvent.keyEnter).1.activeIndex
        ≠ initBox.activeIndex :=
  ⟨reachable_ceStateB, by decide, by decide⟩

/-- C10 counterexample: Escape in the reachable state ceStateB replaces
the non-empty result list with the empty list but leaves the highlight at
1 in that same update, so not every event that replaces the result list
resets the highlighted index to 0. -/
theorem claim10_counterexample :
    ReachableBox constEngine [demoCatalog] "tpc-h" ceStateB
    ∧ (stepBox ceStateB BoxEvent.keyEscape).1.results ≠ ceStateB.results
    ∧ (stepBox ceStateB BoxEvent.keyEscape).1.results = []
    ∧ (stepBox ceStateB BoxEvent.keyEscape).1.activeIndex ≠ 0 :=
  ⟨reachable_ceStateB, by decide, by decide, by decide⟩

/-- C1 witness: the sample catalog yields a coarse index of two items, and
a catalog without databases yields empty indexes. -/
theorem claim1_witness :
    (buildIndexForCatalog demoCatalog).databasesAndTables.docs.length = 2
    ∧ (buildIndexForCatalog
        { name := "empty", databases := [] }).databasesAndTables.docs = [] := by
  constructor
  · rw [(claim1_index_shape demoCatalog).1]
    decide
  · exact ((claim1_index_shape
      { name := "empty", databases := [] }).2.2.2.2 rfl).1

/-- C2 witness: the searcher instantiated on the sample data returns at
most 10 results and the returned list is sorted ascending by score. -/
theorem claim2_witness :
    (searchSegmentedIndex constEngine demoIndex "cust" 10).length ≤ 10
    ∧ (searchSegmentedIndex constEngine demoIndex "cust" 10).Pairwise scoreLE :=
  ⟨(claim2_search_sorted_bounded constEngine demoIndex "cust" 10).1,
   (claim2_search_sorted_bounded constEngine demoIndex "cust" 10).2.1⟩

/-- C3 witness: on the sample data, the first coarse-index match and the
first fine-index match have equal underlying scores, and the biased
coarse-index score is at least 0.05 below the fine-index score. -/
theorem claim3_witness :
    (biasResult demoCoarseFirst).score ≤ demoFineFirst.score - 0.05 :=
  (claim3_score_bias constEngine demoIndex "cust" 10).2.2
    demoCoarseFirst (by decide) demoFineFirst (by decide) (by decide)

/-- C4 witness: typing cus then customer 50 milliseconds later issues
exactly one search, for customer. -/
theorem claim4_witness :
    debounceEmits [(0, "cus"), (50, "customer")] = ["customer"] := by
  have h := claim4_debounce_single_search [(0, "cus"), (50, "customer")]
    (by decide) (List.chain'_pair.mpr (by decide))
  rw [h]
  rfl

/-- C6 witness: on the four sample results, ArrowDown at highlight 3 wraps
to 0, ArrowUp at highlight 0 wraps to 3, and ArrowUp on an empty list is a
no-op. -/
theorem claim6_witness :
    (stepBox { query := "cu", results := demoResults, activeIndex := 3 }
        BoxEvent.keyArrowDown).1
      = { query := "cu", results := demoResults, activeIndex := 0 }
    ∧ (stepBox { query := "cu", results := demoResults, activeIndex := 0 }
        BoxEvent.keyArrowUp).1
      = { query := "cu", results := demoResults,
          activeIndex := demoResults.length - 1 }
    ∧ (stepBox { query := "cu", results := [], activeIndex := 0 }
        BoxEvent.keyArrowUp).1
      = { query := "cu", results := [], activeIndex := 0 } :=
  ⟨(claim6_arrow_navigation _).1 (by decide) (by decide),
   (claim6_arrow_navigation _).2.1 (by decide) rfl,
   ((claim6_arrow_navigation _).2.2.2.2 rfl).1⟩

/-- C7 witness: activating the sample result at index 1 by Enter clears
query and results, navigates to its resource locator, and keeps the
highlight at 1. -/
theorem claim7_witness :
    stepBox { query := "cu", results := demoResults, activeIndex := 1 }
        BoxEvent.keyEnter
      = ({ query := "", results := [], activeIndex := 1 },
         some demoResultAt1.item.resourceUrl) :=
  (claim7_activation_resets
    { query := "cu", results := demoResults, activeIndex := 1 }
    demoResultAt1).1 (by decide)

/-- C8 witness: the database item of the sample catalog carries the
two-segment resource locator built from the catalog and database keys. -/
theorem claim8_witness :
    generatePathDatabase demoCatalog.name "analytics"
      = "/" ++ demoCatalog.name ++ "/" ++ "analytics" :=
  claim8_resource_locators demoCatalog
    (IndexItem.database (generatePathDatabase demoCatalog.name "analytics")
      "analytics")
    (by decide)

/-- C9 witness: a key with no built index yields an empty lookup and an
empty result list. -/
theorem claim9_witness :
    mapGet (indexByCatalog [demoCatalog]) "nope" = none
    ∧ effectSearchResults constEngine [demoCatalog] "nope" "cust" = [] :=
  claim9_missing_catalog_empty constEngine [demoCatalog] "nope" "cust"
    (by decide)

/-- C10 witness: the highlight in the reachable state ceStateB is in range
of its non-empty result list, and ArrowDown on an empty list puts the
highlight at 0. -/
theorem claim10_witness :
    ceStateB.activeIndex < ceStateB.results.length
    ∧ (stepBox { query := "", results := [], activeIndex := 5 }
        BoxEvent.keyArrowDown).1
      = { query := "", results := [], activeIndex := 0 } :=
  ⟨claim10_active_index_invariant.1 constEngine [demoCatalog] "tpc-h"
      ceStateB reachable_ceStateB (by decide),
   claim10_active_index_invariant.2.2.1 _ rfl⟩

end DatarepoSearch
